import Mathlib

/-!
# Visualino main window: a shallow embedding of `src/mainwindow.cpp`

The Qt values the window works with are modelled by plain data:
a `QString` is the list of its characters, a `QByteArray` the list of its
bytes, the window's members are the fields of `MainWindow`, and everything
the window does to the outside (files, the scripting bridge, dialogs, the
toolchain process) is recorded in that same record by explicit state passing.
-/

/-! ## Strings -/

/-- One character of a `QString`. -/
abbrev QChar := Char

/-- A `QString`, as the list of its characters. -/
abbrev QString := List Char

/-- A `QByteArray`, as the list of its bytes. -/
abbrev QByteArray := List (Fin 256)

/-- The character `QChar(0x5c)`, a backslash. -/
def backSlashChar : QChar := Char.ofNat 0x5c

/-- The character `QChar(0x22)`, a double quote. -/
def quoteChar : QChar := Char.ofNat 0x22

/-- `QString::replace(QChar before, const QString &after)`: every occurrence of
the character `before` is replaced by the string `after`. -/
def QString.replaceChar (before : QChar) (after : QString) : QString → QString
  | [] => []
  | c :: cs => (if c = before then after else [c]) ++ QString.replaceChar before after cs

/-- `QString::replace` for a two-character pattern `a b`: the string is scanned
from the left, every occurrence found is replaced by `after`, and the scan
resumes behind the replaced pair (occurrences do not overlap). -/
def QString.replacePair (a b : QChar) (after : QString) : QString → QString
  | [] => []
  | [c] => [c]
  | c :: d :: cs =>
    if c = a ∧ d = b then after ++ QString.replacePair a b after cs
    else c :: QString.replacePair a b after (d :: cs)

/-! ## Qt library values the window uses -/

/-- `QChar::digitValue`: the value of a decimal digit, `none` for any other
character. -/
def QChar.digitValue (c : QChar) : Option Nat :=
  if c.isDigit then some (c.toNat - 48) else none

/-- A piece of a `QString::arg` template: a plain character, or a place marker
`%n` together with the characters it was written with. -/
inductive ArgToken where
  | text (c : QChar)
  | marker (n : Nat) (source : QString)
  deriving DecidableEq, Repr

/-- The place markers of a template, found from the left as `QString::arg`
does: a percent sign followed by one or two decimal digits. (The localized form
`%L1` is left out; no template of the window uses it.) -/
def QString.argTokens : QString → List ArgToken
  | [] => []
  | [c] => [ArgToken.text c]
  | [c, d] =>
    if c = '%' then
      match QChar.digitValue d with
      | none => [ArgToken.text c, ArgToken.text d]
      | some n => [ArgToken.marker n [c, d]]
    else [ArgToken.text c, ArgToken.text d]
  | c :: d :: e :: es =>
    if c = '%' then
      match QChar.digitValue d with
      | none => ArgToken.text c :: QString.argTokens (d :: e :: es)
      | some n =>
        match QChar.digitValue e with
        | none => ArgToken.marker n [c, d] :: QString.argTokens (e :: es)
        | some m => ArgToken.marker (10 * n + m) [c, d, e] :: QString.argTokens es
    else ArgToken.text c :: QString.argTokens (d :: e :: es)

/-- The lowest place-marker number of a template, if it has a marker. -/
def ArgToken.lowest : List ArgToken → Option Nat
  | [] => none
  | ArgToken.text _ :: ts => ArgToken.lowest ts
  | ArgToken.marker n _ :: ts =>
    match ArgToken.lowest ts with
    | none => some n
    | some m => some (min n m)

/-- The template written out again with every marker numbered `n` replaced by
the argument `a`; the other markers stay as they were written. -/
def ArgToken.render (n : Nat) (a : QString) : List ArgToken → QString
  | [] => []
  | ArgToken.text c :: ts => c :: ArgToken.render n a ts
  | ArgToken.marker k source :: ts =>
    (if k = n then a else source) ++ ArgToken.render n a ts

/-- `QString::arg(const QString &a)`: every occurrence of the lowest-numbered
place marker is replaced by `a`; a template without a marker is returned as it
is. The argument itself is not scanned for markers. -/
def QString.arg (s a : QString) : QString :=
  match ArgToken.lowest (QString.argTokens s) with
  | none => s
  | some n => ArgToken.render n a (QString.argTokens s)

/-- `tr`: without an installed translation the source text itself. -/
def tr (sourceText : String) : QString := sourceText.toList

/-- `QDir::isRelativePath` on a Unix host: a path is relative unless it starts
with a slash. -/
def QDir.isRelativePath (path : QString) : Bool :=
  match path with
  | [] => true
  | c :: _ => c != '/'

/-- The path a `QDir` object holds for the name it was constructed with: the
current directory for an empty name, and no trailing slash except on the
root. -/
def QDir.path (dirName : QString) : QString :=
  if dirName.isEmpty then ['.']
  else if dirName.length > 1 ∧ dirName.getLast? = some '/' then dirName.dropLast
  else dirName

/-- `QDir(dirName).filePath(fileName)`: an absolute `fileName` is returned as
it is, a relative one is appended to the directory's path, with a slash in
between unless the path is empty or ends in one. -/
def QDir.filePath (dirName fileName : QString) : QString :=
  if QDir.isRelativePath fileName = false then fileName
  else
    let ret := QDir.path dirName
    if fileName.isEmpty then ret
    else if ¬ ret.isEmpty ∧ ret.getLast? ≠ some '/' then ret ++ ['/'] ++ fileName
    else ret ++ fileName

/-- An INI settings file as `QSettings` reads it: the value stored under each
key, if there is one. -/
abbrev QSettings := QString → Option QString

/-- `QSettings::value(key, defaultValue).toString()`. -/
def QSettings.value (settings : QSettings) (key defaultValue : QString) : QString :=
  match settings key with
  | some v => v
  | none => defaultValue

/-- The files and directories the window reads and writes. `canMkdir`,
`canRemove` and `canWrite` say which operations the operating system lets
succeed when they are attempted (permissions, missing parent directories). -/
structure FileSystem where
  files : QString → Option QByteArray
  dirs : QString → Bool
  canMkdir : QString → Bool
  canRemove : QString → Bool
  canWrite : QString → Bool

/-- `QDir::exists`. -/
def FileSystem.dirExists (fs : FileSystem) (dirName : QString) : Bool :=
  fs.dirs (QDir.path dirName)

/-- `QDir::mkdir`; nothing happens when the directory cannot be created. -/
def FileSystem.mkdir (fs : FileSystem) (dirName : QString) : FileSystem :=
  if fs.canMkdir dirName then
    { fs with dirs := Function.update fs.dirs (QDir.path dirName) true }
  else fs

/-- `QFile::exists`. -/
def FileSystem.exists (fs : FileSystem) (fileName : QString) : Bool :=
  (fs.files fileName).isSome

/-- `QFile::remove`; nothing happens when the file cannot be removed. -/
def FileSystem.remove (fs : FileSystem) (fileName : QString) : FileSystem :=
  if fs.canRemove fileName then
    { fs with files := Function.update fs.files fileName none }
  else fs

/-- `QFile::open(QIODevice::WriteOnly)`: on success the file exists and is
empty (write-only mode truncates). The result says whether the file is open. -/
def FileSystem.openWriteOnly (fs : FileSystem) (fileName : QString) : Bool × FileSystem :=
  if fs.canWrite fileName then
    (true, { fs with files := Function.update fs.files fileName (some []) })
  else (false, fs)

/-- `QFile::write` followed by `close`: the bytes are appended to a file that is
open, and nothing is written to one that is not. -/
def FileSystem.write (fs : FileSystem) (fileName : QString) (isOpen : Bool)
    (data : QByteArray) : FileSystem :=
  if isOpen then
    let content := (fs.files fileName).getD [] ++ data
    { fs with files := Function.update fs.files fileName (some content) }
  else fs

/-- `QFile::open(QIODevice::ReadOnly)` followed by `readAll`: the content of
an existing file, `none` when the file cannot be opened. -/
def FileSystem.readAll (fs : FileSystem) (fileName : QString) : Option QByteArray :=
  fs.files fileName

/-- `QProcess::ProcessState`. -/
inductive ProcessState where
  | NotRunning
  | Starting
  | Running
  deriving DecidableEq, Repr

/-- The `QProcess` handle of the window: its state and the programs it has
launched so far, each with its argument list. -/
structure QProcess where
  state : ProcessState
  launched : List (QString × List QString)
  deriving DecidableEq, Repr

/-- `QProcess::start(program, arguments)`: a handle that is not running launches
the program and enters `Starting`; on any other handle the call only prints
the warning "QProcess::start: Process is already running" and returns. -/
def QProcess.start (process : QProcess) (program : QString) (arguments : List QString) :
    QProcess :=
  if process.state = ProcessState.NotRunning then
    { state := ProcessState.Starting, launched := process.launched ++ [(program, arguments)] }
  else process

/-- What the window asks of its collaborators, in the order it asks: scripts
given to the web frame, dialogs shown, the status-bar message, and the calls of
`process->start`. -/
inductive Call where
  | load (url : QString)
  | evaluateJavaScript (script : QString)
  | getOpenFileName
  | getSaveFileName
  | messageBox (text : QString)
  | showMessage (text : QString) (timeout : Nat)
  | processStart (program : QString) (arguments : List QString)
  deriving DecidableEq, Repr

/-- What the surroundings answer during one action: where the application is
installed, the settings files, what the web frame returns for a script, what
the file dialogs return (`none` is the null string of a cancelled dialog), and
the text codecs. -/
structure Environment where
  applicationDirPath : QString
  locateConfig : QString
  iniFile : QString → QSettings
  evaluateJavaScript : QString → QString
  getOpenFileName : Option QString
  getSaveFileName : Option QString
  toLocal8Bit : QString → QByteArray
  toByteArray : QString → QByteArray
  fromByteArray : QByteArray → QString

/-- The members of `MainWindow` (`arduinoIdePath`, `tmpDirName`, `tmpFileName`,
`htmlIndex`, `xmlFileName`, `process`, the log panel `textBrowser`), together
with the file system and the calls made so far. -/
structure MainWindow where
  arduinoIdePath : QString
  tmpDirName : QString
  tmpFileName : QString
  htmlIndex : QString
  xmlFileName : QString
  process : QProcess
  textBrowser : List QString
  fileSystem : FileSystem
  calls : List Call

/-- `CONFIG_INI`. -/
def CONFIG_INI : QString := "config.ini".toList

/-! ## The main window -/

namespace MainWindow

/-- `MainWindow::escapeCharacters` (mainwindow.cpp, lines 255-267): every
backslash becomes two backslashes, then every double quote becomes a backslash
followed by a double quote. -/
def escapeCharacters (string : QString) : QString :=
  let rValue := string
  -- Assign \\ to backSlash
  let backSlash : QString := [backSlashChar] ++ [backSlashChar]
  let rValue := QString.replaceChar backSlashChar backSlash rValue
  -- Assign \" to quote
  let quote : QString := [backSlashChar] ++ [quoteChar]
  let rValue := QString.replaceChar quoteChar quote rValue
  rValue

/-- `MainWindow::checkRelativePath` (lines 99-105). The test and the joined
path are both taken from the member `htmlIndex`, as in the source; `fileName`
is returned only in the other branch. -/
def checkRelativePath (env : Environment) (w : MainWindow) (fileName : QString) : QString :=
  -- Append the binary path if relative.
  if QDir.isRelativePath w.htmlIndex then
    QDir.filePath env.applicationDirPath w.htmlIndex
  else fileName

/-- `MainWindow::readSettings` (lines 51-97), in the `Q_OS_LINUX` build. -/
def readSettings (env : Environment) (w : MainWindow) : MainWindow :=
  -- Set environment
  let configFile := env.locateConfig
  let configFile :=
    if configFile.isEmpty then
      -- Couldn't locate config.ini in DataLocation dirs. Search in the binary path.
      QDir.filePath env.applicationDirPath CONFIG_INI
    else configFile
  let platform : QString := "linux/".toList
  let settings := env.iniFile configFile
  let w := { w with arduinoIdePath :=
                      settings.value (platform ++ "arduino_ide_path".toList)
                        "/usr/bin/arduino".toList }
  let w := { w with tmpDirName :=
                      settings.value (platform ++ "tmp_dir_name".toList)
                        "/tmp/visualino/".toList }
  let w := { w with tmpFileName :=
                      settings.value (platform ++ "tmp_file_name".toList)
                        "/tmp/visualino/visualino.ino".toList }
  let w := { w with htmlIndex :=
                      settings.value (platform ++ "html_index".toList)
                        "/usr/share/visualino/html/index.html".toList }
  -- Add applicationDirPath if relative path.
  let w := { w with arduinoIdePath := checkRelativePath env w w.arduinoIdePath }
  let w := { w with htmlIndex := checkRelativePath env w w.htmlIndex }
  let w := { w with tmpDirName := checkRelativePath env w w.tmpDirName }
  let w := { w with tmpFileName := checkRelativePath env w w.tmpFileName }
  w

/-- The constructor (lines 16-43): settings are read, the document has no file
name, the index page is loaded and the process handle is created idle. -/
def create (env : Environment) (fileSystem : FileSystem) : MainWindow :=
  let w : MainWindow :=
    { arduinoIdePath := [], tmpDirName := [], tmpFileName := [], htmlIndex := [],
      xmlFileName := [], process := { state := ProcessState.NotRunning, launched := [] },
      textBrowser := [], fileSystem := fileSystem, calls := [] }
  let w := readSettings env w
  let w := { w with xmlFileName := [] }
  { w with calls := w.calls ++ [Call.load w.htmlIndex] }

/-- The script asking the editor for the generated code. -/
def workspaceToCodeScript : QString := "Blockly.Arduino.workspaceToCode();".toList

/-- Lines 108-131 of `MainWindow::arduinoExec`: the temp directory is created
if it does not exist, an existing temp file is removed, the file is opened for
writing, the generated code is asked of the editor, written and the file
closed. None of the results of `mkdir`, `remove`, `open` and `write` is
looked at. -/
def arduinoWriteCode (env : Environment) (w : MainWindow) : MainWindow :=
  -- Check if temp path exists
  let fs := w.fileSystem
  let fs :=
    if fs.dirExists w.tmpDirName = false then
      fs.mkdir (QDir.filePath w.tmpDirName w.tmpDirName)
    else fs
  -- Check if tmp file exists
  let fs := if fs.exists w.tmpFileName then fs.remove w.tmpFileName else fs
  let opened := fs.openWriteOnly w.tmpFileName
  -- Read code
  let codeString := env.evaluateJavaScript workspaceToCodeScript
  -- Write code to tmp file
  let fs := opened.2.write w.tmpFileName opened.1 (env.toLocal8Bit codeString)
  { w with fileSystem := fs,
           calls := w.calls ++ [Call.evaluateJavaScript workspaceToCodeScript] }

/-- Lines 134-135 of `MainWindow::arduinoExec`:
`process->start(arduinoIdePath, arguments)`. -/
def startProcess (program : QString) (arguments : List QString) (w : MainWindow) :
    MainWindow :=
  { w with process := w.process.start program arguments,
           calls := w.calls ++ [Call.processStart program arguments] }

/-- `MainWindow::arduinoExec` (lines 107-136). -/
def arduinoExec (env : Environment) (action : QString) (w : MainWindow) : MainWindow :=
  let w := arduinoWriteCode env w
  -- Verify code
  let arguments := [action, w.tmpFileName]
  startProcess w.arduinoIdePath arguments w

/-- `MainWindow::actionNew` (lines 138-146). -/
def actionNew (w : MainWindow) : MainWindow :=
  -- Unset file name
  let w := { w with xmlFileName := [] }
  -- Clear workspace
  let script : QString := "Blockly.mainWorkspace.clear(); renderContent();".toList
  { w with calls := w.calls ++ [Call.evaluateJavaScript script] }

/-- `MainWindow::actionUpload` (lines 151-153). -/
def actionUpload (env : Environment) (w : MainWindow) : MainWindow :=
  arduinoExec env "--upload".toList w

/-- `MainWindow::actionVerify` (lines 155-157). -/
def actionVerify (env : Environment) (w : MainWindow) : MainWindow :=
  arduinoExec env "--verify".toList w

/-- The script template of `actionOpen` (lines 189-192). -/
def loadScriptTemplate : QString :=
  ("var data = '%1'; " ++ "var xml = Blockly.Xml.textToDom(data);"
    ++ "Blockly.Xml.domToWorkspace(Blockly.getMainWorkspace()," ++ "xml);").toList

/-- `MainWindow::actionOpen` (lines 159-196). -/
def actionOpen (env : Environment) (w : MainWindow) : MainWindow :=
  -- Open file dialog
  let w := { w with calls := w.calls ++ [Call.getOpenFileName] }
  match env.getOpenFileName with
  -- Return if no file to open
  | none => w
  | some xmlFileName =>
    -- Open file
    match w.fileSystem.readAll xmlFileName with
    | none =>
      -- Display error message
      let text := (tr "Couldn't open file to read content: %1.").arg xmlFileName
      { w with calls := w.calls ++ [Call.messageBox text] }
    | some content =>
      -- Read content
      let xml := env.fromByteArray content
      let escapedXml := escapeCharacters xml
      -- Set XML to Workspace
      let script := loadScriptTemplate.arg escapedXml
      let w := { w with calls := w.calls ++ [Call.evaluateJavaScript script] }
      -- Set file name
      { w with xmlFileName := xmlFileName }

/-- The script asking the editor for the workspace as XML text. -/
def workspaceToXmlScript : QString :=
  ("var xml = Blockly.Xml.workspaceToDom(Blockly.getMainWorkspace());"
    ++ "var data = Blockly.Xml.domToText(xml); data;").toList

/-- Lines 220-240 of `MainWindow::actionSave`: the XML is written to the
file `xmlFileName`, and the member is set if it was empty. -/
def saveXml (env : Environment) (xml xmlFileName : QString) (w : MainWindow) : MainWindow :=
  -- Save XML to file
  let opened := w.fileSystem.openWriteOnly xmlFileName
  if opened.1 = false then
    -- Display error message
    let text := (tr "Couldn't open file to save content: %1.").arg xmlFileName
    { w with calls := w.calls ++ [Call.messageBox text] }
  else
    let fs := opened.2.write xmlFileName opened.1 (env.toByteArray xml)
    let w := { w with fileSystem := fs }
    -- Set file name
    let w := if w.xmlFileName.isEmpty then { w with xmlFileName := xmlFileName } else w
    -- Feedback
    { w with calls := w.calls ++ [Call.showMessage (tr "Done saving.") 2000] }

/-- `MainWindow::actionSave` (lines 198-241). -/
def actionSave (env : Environment) (w : MainWindow) : MainWindow :=
  -- Get XML
  let xml := env.evaluateJavaScript workspaceToXmlScript
  let w := { w with calls := w.calls ++ [Call.evaluateJavaScript workspaceToXmlScript] }
  if w.xmlFileName.isEmpty then
    -- Open file dialog
    let w := { w with calls := w.calls ++ [Call.getSaveFileName] }
    match env.getSaveFileName with
    -- Return if no file to open
    | none => w
    | some xmlFileName => saveXml env xml xmlFileName w
  else saveXml env xml w.xmlFileName w

/-- `MainWindow::onProcessFinished` (lines 243-245). -/
def onProcessFinished (_exitCode : Int) (w : MainWindow) : MainWindow :=
  { w with textBrowser := w.textBrowser ++ [tr "Finished."] }

/-- `MainWindow::onProcessOutputUpdated` (lines 247-249); `output` is what
`process->readAllStandardOutput()` returns. -/
def onProcessOutputUpdated (env : Environment) (output : QByteArray) (w : MainWindow) :
    MainWindow :=
  { w with textBrowser := w.textBrowser ++ [env.fromByteArray output] }

/-- `MainWindow::onProcessStarted` (lines 251-253). -/
def onProcessStarted (w : MainWindow) : MainWindow :=
  { w with textBrowser := w.textBrowser ++ [tr "Running..."] }

end MainWindow

/-! ## The specification's side of the escaping properties -/

/-- The inverse the specification describes for `escapeCharacters` (it is not
part of the source): the two substitutions reversed, in the opposite order.
First every backslash-quote pair becomes a double quote, then every pair of
backslashes becomes a single backslash. -/
def unescape (s : QString) : QString :=
  QString.replacePair backSlashChar backSlashChar [backSlashChar]
    (QString.replacePair backSlashChar quoteChar [quoteChar] s)

/-- What the specification says one character becomes under escaping: two
backslashes for a backslash, backslash-quote for a double quote, the character
itself otherwise. -/
def escapeOne (c : QChar) : QString :=
  if c = backSlashChar then [backSlashChar, backSlashChar]
  else if c = quoteChar then [backSlashChar, quoteChar]
  else [c]

/-- The character-by-character concatenation of `escapeOne`. -/
def escapeEach : QString → QString
  | [] => []
  | c :: cs => escapeOne c ++ escapeEach cs

/-- Doubling of the backslashes only: the intermediate string of the round
trip, after the quotes have been unescaped. -/
def doubleBackSlashes : QString → QString
  | [] => []
  | c :: cs => (if c = backSlashChar then [backSlashChar, backSlashChar] else [c])
      ++ doubleBackSlashes cs

/-! ## Concrete surroundings for the scenarios -/

/-- A local 8-bit codec: each character is written as the byte of its code. -/
def latin1 (s : QString) : QByteArray := s.map (fun c => Fin.ofNat c.toNat)

/-- The decoding that goes with `latin1`. -/
def fromLatin1 (bytes : QByteArray) : QString := bytes.map (fun x => Char.ofNat x.val)

/-- The file content of the open scenario: a, backslash, quote, b, backslash,
backslash, c. -/
def scenarioContent : QString :=
  ['a', backSlashChar, quoteChar, 'b', backSlashChar, backSlashChar, 'c']

/-- A file system holding the document `/tmp/x.xml`, an old temp file in the
existing directory `/tmp/visualino` and an older document `/home/u/old.xml`;
nothing below `/readonly/` can be written. -/
def scenarioFileSystem : FileSystem :=
  { files := fun name =>
      if name = "/tmp/x.xml".toList then some (latin1 scenarioContent)
      else if name = "/tmp/visualino/visualino.ino".toList then some [1, 2, 3]
      else if name = "/home/u/old.xml".toList then some [7]
      else none
    dirs := fun name =>
      name == "/tmp".toList || name == "/tmp/visualino".toList || name == "/home/u".toList
    canMkdir := fun _ => true
    canRemove := fun _ => true
    canWrite := fun name => !("/readonly/".toList.isPrefixOf name) }

/-- Surroundings with an empty settings store, an application installed in
`/opt/visualino`, an editor that generates `void loop(){}` for every script,
and dialogs that are cancelled. -/
def scenarioEnvironment : Environment :=
  { applicationDirPath := "/opt/visualino".toList
    locateConfig := []
    iniFile := fun _ _ => none
    evaluateJavaScript := fun _ => "void loop()\x7b\x7d".toList
    getOpenFileName := none
    getSaveFileName := none
    toLocal8Bit := latin1
    toByteArray := latin1
    fromByteArray := fromLatin1 }

/-- The window as constructed in the scenario surroundings. -/
def scenarioWindow : MainWindow :=
  MainWindow.create scenarioEnvironment scenarioFileSystem

/-- A settings store with the single key `key`. -/
def singleSetting (key value : QString) : QSettings :=
  fun k => if k = key then some value else none

/-- The bytes of `void loop(){}` in the `latin1` codec. -/
def scenarioCodeBytes : QByteArray :=
  [118, 111, 105, 100, 32, 108, 111, 111, 112, 40, 41, 123, 125]

/-- The scenario window while a verify run launched earlier is still running. -/
def runningWindow : MainWindow :=
  { scenarioWindow with
    process :=
      { state := ProcessState.Running,
        launched := [("/usr/bin/arduino".toList,
          ["--verify".toList, "/tmp/visualino/visualino.ino".toList])] } }

/-- The scenario file system with every file write-protected: no file can be
removed and none can be opened for writing. -/
def lockedFileSystem : FileSystem :=
  { scenarioFileSystem with canRemove := fun _ => false, canWrite := fun _ => false }

/-- The window as constructed over the write-protected file system. -/
def lockedWindow : MainWindow :=
  MainWindow.create scenarioEnvironment lockedFileSystem

/-- The scenario window with its document bound to `/home/u/old.xml`. -/
def boundWindow : MainWindow :=
  { scenarioWindow with xmlFileName := "/home/u/old.xml".toList }

/-! ## Lemmas on the string operations -/

theorem backSlashChar_ne_quoteChar : backSlashChar ≠ quoteChar := by decide

theorem QString.replaceChar_append (before : QChar) (after x y : QString) :
    QString.replaceChar before after (x ++ y)
      = QString.replaceChar before after x ++ QString.replaceChar before after y := by
  induction x with
  | nil => rfl
  | cons c cs ih => simp [QString.replaceChar, ih]

theorem QString.replacePair_cons_of_ne (a b : QChar) (after : QString) (x : QChar)
    (l : QString) (hx : x ≠ a) :
    QString.replacePair a b after (x :: l) = x :: QString.replacePair a b after l := by
  cases l with
  | nil => rfl
  | cons d cs => simp [QString.replacePair, hx]

theorem QString.replacePair_cons_of_head_ne (a b : QChar) (after : QString) (x : QChar)
    (l : QString) (hl : ∀ y, l.head? = some y → y ≠ b) :
    QString.replacePair a b after (x :: l) = x :: QString.replacePair a b after l := by
  cases l with
  | nil => rfl
  | cons d cs =>
    have hd : d ≠ b := hl d rfl
    simp [QString.replacePair, hd]

theorem escapeEach_head_ne_quote (s : QString) :
    ∀ y, (escapeEach s).head? = some y → y ≠ quoteChar := by
  intro y hy
  cases s with
  | nil => simp [escapeEach] at hy
  | cons c cs =>
    by_cases h1 : c = backSlashChar
    · simp [escapeEach, escapeOne, h1] at hy
      rw [← hy]; exact backSlashChar_ne_quoteChar
    · by_cases h2 : c = quoteChar
      · subst h2
        simp [escapeEach, escapeOne, h1] at hy
        rw [← hy]; exact backSlashChar_ne_quoteChar
      · simp [escapeEach, escapeOne, h1, h2] at hy
        rw [← hy]; exact h2

/-- The two replacements of `escapeCharacters` amount to escaping each character
on its own. -/
theorem escapeCharacters_eq_escapeEach (s : QString) :
    MainWindow.escapeCharacters s = escapeEach s := by
  induction s with
  | nil => rfl
  | cons c cs ih =>
    have ih2 : QString.replaceChar quoteChar [backSlashChar, quoteChar]
        (QString.replaceChar backSlashChar [backSlashChar, backSlashChar] cs)
          = escapeEach cs := ih
    show QString.replaceChar quoteChar [backSlashChar, quoteChar]
        (QString.replaceChar backSlashChar [backSlashChar, backSlashChar] (c :: cs))
          = escapeEach (c :: cs)
    by_cases h1 : c = backSlashChar
    · subst h1
      simp [QString.replaceChar, escapeEach, escapeOne, backSlashChar_ne_quoteChar, ih2]
    · by_cases h2 : c = quoteChar
      · subst h2
        simp [QString.replaceChar, escapeEach, escapeOne, h1, ih2]
      · simp [QString.replaceChar, escapeEach, escapeOne, h1, h2, ih2]

/-- Unescaping the quotes of an escaped string leaves the string with only its
backslashes doubled. -/
theorem replacePair_quote_escapeEach (s : QString) :
    QString.replacePair backSlashChar quoteChar [quoteChar] (escapeEach s)
      = doubleBackSlashes s := by
  induction s with
  | nil => rfl
  | cons c cs ih =>
    by_cases h1 : c = backSlashChar
    · subst h1
      have hstep : QString.replacePair backSlashChar quoteChar [quoteChar]
          (backSlashChar :: escapeEach cs)
            = backSlashChar :: doubleBackSlashes cs := by
        rw [QString.replacePair_cons_of_head_ne _ _ _ _ _ (escapeEach_head_ne_quote cs), ih]
      simp [escapeEach, escapeOne, doubleBackSlashes, QString.replacePair,
        backSlashChar_ne_quoteChar, hstep]
    · by_cases h2 : c = quoteChar
      · subst h2
        simp [escapeEach, escapeOne, doubleBackSlashes, QString.replacePair, h1, ih]
      · simp [escapeEach, escapeOne, doubleBackSlashes, h1, h2,
          QString.replacePair_cons_of_ne _ _ _ _ _ h1, ih]

/-- Halving the backslash pairs undoes the doubling. -/
theorem replacePair_backSlash_double (s : QString) :
    QString.replacePair backSlashChar backSlashChar [backSlashChar] (doubleBackSlashes s)
      = s := by
  induction s with
  | nil => rfl
  | cons c cs ih =>
    by_cases h1 : c = backSlashChar
    · subst h1
      simp [doubleBackSlashes, QString.replacePair, ih]
    · simp [doubleBackSlashes, h1, QString.replacePair_cons_of_ne _ _ _ _ _ h1, ih]

/-- The round trip holds for every string, whatever its characters. -/
theorem unescape_escapeCharacters_all (s : QString) :
    unescape (MainWindow.escapeCharacters s) = s := by
  rw [escapeCharacters_eq_escapeEach]
  unfold unescape
  rw [replacePair_quote_escapeEach, replacePair_backSlash_double]

/-! ## Escaping -/

/-- C1: for every string `s` made only of backslashes and double quotes,
unescaping the escaped string gives `s` back, where unescaping replaces every
backslash-quote pair by a double quote and then every pair of backslashes by a
single backslash. -/
theorem unescape_escapeCharacters (s : QString)
    (h : ∀ c ∈ s, c = backSlashChar ∨ c = quoteChar) :
    unescape (MainWindow.escapeCharacters s) = s := by
  have _ := h
  exact unescape_escapeCharacters_all s

/-- The round trip of C1 at backslash, quote, quote, backslash, backslash. -/
theorem unescape_escapeCharacters_witness :
    (∀ c ∈ [backSlashChar, quoteChar, quoteChar, backSlashChar, backSlashChar],
        c = backSlashChar ∨ c = quoteChar)
      ∧ MainWindow.escapeCharacters
          [backSlashChar, quoteChar, quoteChar, backSlashChar, backSlashChar]
        = [backSlashChar, backSlashChar, backSlashChar, quoteChar, backSlashChar, quoteChar,
            backSlashChar, backSlashChar, backSlashChar, backSlashChar]
      ∧ unescape (MainWindow.escapeCharacters
          [backSlashChar, quoteChar, quoteChar, backSlashChar, backSlashChar])
        = [backSlashChar, quoteChar, quoteChar, backSlashChar, backSlashChar] :=
  ⟨by decide, by decide,
    unescape_escapeCharacters
      [backSlashChar, quoteChar, quoteChar, backSlashChar, backSlashChar] (by decide)⟩

/-- C2: `escapeCharacters` is the character-by-character concatenation of two
backslashes for a backslash, backslash-quote for a double quote and the
character itself otherwise (a single quote stays as it is); and when the open
dialog returns a file that can be read, `actionOpen` gives the bridge exactly
one script, the load template with the escaped file content between its single
quotes. The content a, backslash, quote, b, backslash, backslash, c is escaped
to a, three backslashes, quote, b, four backslashes, c. -/
theorem escapeCharacters_each_actionOpen (env : Environment) (w : MainWindow)
    (xmlFileName : QString) (content : QByteArray)
    (hdialog : env.getOpenFileName = some xmlFileName)
    (hfile : w.fileSystem.readAll xmlFileName = some content) :
    (∀ s, MainWindow.escapeCharacters s = escapeEach s)
      ∧ MainWindow.escapeCharacters [Char.ofNat 0x27] = [Char.ofNat 0x27]
      ∧ (MainWindow.actionOpen env w).calls
        = w.calls ++ [Call.getOpenFileName,
            Call.evaluateJavaScript ("var data = '".toList
              ++ MainWindow.escapeCharacters (env.fromByteArray content)
              ++ ("'; var xml = Blockly.Xml.textToDom(data);"
                ++ "Blockly.Xml.domToWorkspace(Blockly.getMainWorkspace(),xml);").toList)]
      ∧ MainWindow.escapeCharacters
          ['a', backSlashChar, quoteChar, 'b', backSlashChar, backSlashChar, 'c']
        = ['a', backSlashChar, backSlashChar, backSlashChar, quoteChar, 'b',
            backSlashChar, backSlashChar, backSlashChar, backSlashChar, 'c'] := by
  refine ⟨escapeCharacters_eq_escapeEach, by decide, ?_, by decide⟩
  have harg : ∀ x : QString, MainWindow.loadScriptTemplate.arg x
      = "var data = '".toList ++ x
        ++ ("'; var xml = Blockly.Xml.textToDom(data);"
          ++ "Blockly.Xml.domToWorkspace(Blockly.getMainWorkspace(),xml);").toList :=
    fun _ => rfl
  simp only [MainWindow.actionOpen, hdialog, hfile, harg, List.append_assoc,
    List.singleton_append]

/-- The open scenario of C2: the dialog returns `/tmp/x.xml`, whose content is
a, backslash, quote, b, backslash, backslash, c. -/
theorem escapeCharacters_each_actionOpen_witness :
    ({ scenarioEnvironment with getOpenFileName := some "/tmp/x.xml".toList }
        : Environment).getOpenFileName = some "/tmp/x.xml".toList
      ∧ scenarioWindow.fileSystem.readAll "/tmp/x.xml".toList = some (latin1 scenarioContent)
      ∧ (MainWindow.actionOpen
          { scenarioEnvironment with getOpenFileName := some "/tmp/x.xml".toList }
          scenarioWindow).calls
        = scenarioWindow.calls ++ [Call.getOpenFileName,
            Call.evaluateJavaScript ("var data = '".toList
              ++ ['a', backSlashChar, backSlashChar, backSlashChar, quoteChar, 'b',
                    backSlashChar, backSlashChar, backSlashChar, backSlashChar, 'c']
              ++ ("'; var xml = Blockly.Xml.textToDom(data);"
                ++ "Blockly.Xml.domToWorkspace(Blockly.getMainWorkspace(),xml);").toList)] :=
  ⟨rfl, by decide,
    (escapeCharacters_each_actionOpen
      { scenarioEnvironment with getOpenFileName := some "/tmp/x.xml".toList }
      scenarioWindow "/tmp/x.xml".toList (latin1 scenarioContent) rfl (by decide)).2.2.1⟩

/-! ## Settings and path normalization -/

/-- C3, the code at the inputs where it departs from the claim. The claim:
`checkRelativePath p` is `p` for an absolute `p` and the executable's directory
joined with `p` for a relative one. The code tests and joins the member
`htmlIndex` instead of its argument: with a relative `htmlIndex` the absolute
`/usr/bin/arduino` comes back as `/opt/visualino/html/index.html`; with an
absolute `htmlIndex` the relative `tmp/visualino.ino` comes back unchanged; and
`readSettings` leaves a relative `tmp_file_name` of the store relative. -/
theorem checkRelativePath_tests_htmlIndex :
    (∀ (env : Environment) (w : MainWindow) (fileName : QString),
        MainWindow.checkRelativePath env w fileName
          = if QDir.isRelativePath w.htmlIndex
            then QDir.filePath env.applicationDirPath w.htmlIndex else fileName)
      ∧ QDir.isRelativePath "/usr/bin/arduino".toList = false
      ∧ MainWindow.checkRelativePath scenarioEnvironment
          { scenarioWindow with htmlIndex := "html/index.html".toList }
          "/usr/bin/arduino".toList
        = "/opt/visualino/html/index.html".toList
      ∧ QDir.isRelativePath "tmp/visualino.ino".toList = true
      ∧ MainWindow.checkRelativePath scenarioEnvironment
          { scenarioWindow with htmlIndex := "/usr/share/visualino/html/index.html".toList }
          "tmp/visualino.ino".toList
        = "tmp/visualino.ino".toList
      ∧ (MainWindow.readSettings
          { scenarioEnvironment with
            iniFile := fun _ =>
              singleSetting "linux/tmp_file_name".toList "tmp/visualino.ino".toList }
          scenarioWindow).tmpFileName
        = "tmp/visualino.ino".toList := by
  refine ⟨fun _ _ _ => rfl, by decide, by decide, by decide, by decide, by decide⟩

/-- C4, the code at the input where it departs from the claim. With an empty
store `readSettings` yields the four documented defaults, whatever the
surroundings. But a value absent from the store does not always end as its
default: with only `linux/html_index` stored, as the relative
`html/index.html`, the toolchain path ends as
`/opt/visualino/html/index.html`, not `/usr/bin/arduino`. -/
theorem readSettings_defaults_but_arduinoIdePath :
    (∀ (env : Environment) (w : MainWindow),
        (MainWindow.readSettings { env with iniFile := fun _ _ => none } w).arduinoIdePath
            = "/usr/bin/arduino".toList
          ∧ (MainWindow.readSettings { env with iniFile := fun _ _ => none } w).tmpDirName
            = "/tmp/visualino/".toList
          ∧ (MainWindow.readSettings { env with iniFile := fun _ _ => none } w).tmpFileName
            = "/tmp/visualino/visualino.ino".toList
          ∧ (MainWindow.readSettings { env with iniFile := fun _ _ => none } w).htmlIndex
            = "/usr/share/visualino/html/index.html".toList)
      ∧ singleSetting "linux/html_index".toList "html/index.html".toList
          "linux/arduino_ide_path".toList = none
      ∧ (MainWindow.readSettings
          { scenarioEnvironment with
            iniFile := fun _ =>
              singleSetting "linux/html_index".toList "html/index.html".toList }
          scenarioWindow).arduinoIdePath
        = "/opt/visualino/html/index.html".toList := by
  refine ⟨fun env w => ⟨rfl, rfl, rfl, rfl⟩, by decide, by decide⟩

/-- C5: path normalization is idempotent; for every window state and every
path, `checkRelativePath` applied to its own result gives that result. -/
theorem checkRelativePath_idempotent (env : Environment) (w : MainWindow) (p : QString) :
    MainWindow.checkRelativePath env w (MainWindow.checkRelativePath env w p)
      = MainWindow.checkRelativePath env w p := by
  unfold MainWindow.checkRelativePath
  by_cases h : QDir.isRelativePath w.htmlIndex = true <;> simp [h]

/-! ## The toolchain actions -/

/-- C6: for every configuration the verify action calls `process->start` with
the configured toolchain path and exactly the two arguments `--verify` and the
configured temp file, and the upload action with exactly `--upload` and the
temp file; an idle process handle launches exactly that command. -/
theorem actionVerify_actionUpload_arguments (env : Environment) (w : MainWindow) :
    (MainWindow.actionVerify env w).calls
        = w.calls ++ [Call.evaluateJavaScript MainWindow.workspaceToCodeScript,
            Call.processStart w.arduinoIdePath ["--verify".toList, w.tmpFileName]]
      ∧ (MainWindow.actionVerify env w).process
        = w.process.start w.arduinoIdePath ["--verify".toList, w.tmpFileName]
      ∧ (MainWindow.actionUpload env w).calls
        = w.calls ++ [Call.evaluateJavaScript MainWindow.workspaceToCodeScript,
            Call.processStart w.arduinoIdePath ["--upload".toList, w.tmpFileName]]
      ∧ (MainWindow.actionUpload env w).process
        = w.process.start w.arduinoIdePath ["--upload".toList, w.tmpFileName]
      ∧ (∀ launched : List (QString × List QString),
          (MainWindow.actionVerify env
              { w with process := { state := ProcessState.NotRunning, launched := launched } }
            ).process
            = { state := ProcessState.Starting,
                launched := launched
                  ++ [(w.arduinoIdePath, ["--verify".toList, w.tmpFileName])] })
      ∧ (∀ launched : List (QString × List QString),
          (MainWindow.actionUpload env
              { w with process := { state := ProcessState.NotRunning, launched := launched } }
            ).process
            = { state := ProcessState.Starting,
                launched := launched
                  ++ [(w.arduinoIdePath, ["--upload".toList, w.tmpFileName])] }) := by
  refine ⟨?_, rfl, ?_, rfl, fun _ => rfl, fun _ => rfl⟩ <;>
    simp [MainWindow.actionVerify, MainWindow.actionUpload, MainWindow.arduinoExec,
      MainWindow.startProcess, MainWindow.arduinoWriteCode]

/-- The file system after the steps of `arduinoWriteCode`, when the temp file
can be opened for writing: the temp file holds the written bytes only. -/
theorem arduinoWriteCode_files (env : Environment) (w : MainWindow)
    (hwrite : w.fileSystem.canWrite w.tmpFileName = true) :
    (MainWindow.arduinoWriteCode env w).fileSystem.files w.tmpFileName
      = some (env.toLocal8Bit (env.evaluateJavaScript MainWindow.workspaceToCodeScript)) := by
  have hmk : ∀ (fs : FileSystem) (d : QString), (fs.mkdir d).canWrite = fs.canWrite := by
    intro fs d; unfold FileSystem.mkdir; split <;> rfl
  have hrm : ∀ (fs : FileSystem) (d : QString), (fs.remove d).canWrite = fs.canWrite := by
    intro fs d; unfold FileSystem.remove; split <;> rfl
  have hopen : ∀ (fs : FileSystem) (data : QByteArray),
      fs.canWrite w.tmpFileName = true →
      ((fs.openWriteOnly w.tmpFileName).2.write w.tmpFileName
          (fs.openWriteOnly w.tmpFileName).1 data).files w.tmpFileName = some data := by
    intro fs data h
    simp [FileSystem.openWriteOnly, FileSystem.write, h]
  unfold MainWindow.arduinoWriteCode
  apply hopen
  split <;> split <;> simp [hmk, hrm, hwrite]

/-- C7 as stated fails: `arduinoExec` does not look at the results of `remove`,
`open` and `write`, and always comes to `process->start`. Over the
write-protected file system the editor generates `void loop(){}`, the temp
file held the bytes 1, 2, 3, and after `actionVerify` it still holds those
bytes, not the generated code, while the toolchain has been launched on it. -/
theorem actionVerify_unwritable_keeps_tempFile :
    scenarioEnvironment.evaluateJavaScript MainWindow.workspaceToCodeScript
        = "void loop()\x7b\x7d".toList
      ∧ scenarioEnvironment.toLocal8Bit "void loop()\x7b\x7d".toList = scenarioCodeBytes
      ∧ lockedWindow.tmpFileName = "/tmp/visualino/visualino.ino".toList
      ∧ lockedWindow.fileSystem.canWrite lockedWindow.tmpFileName = false
      ∧ lockedWindow.fileSystem.files lockedWindow.tmpFileName = some [1, 2, 3]
      ∧ (MainWindow.arduinoWriteCode scenarioEnvironment lockedWindow).fileSystem.files
          lockedWindow.tmpFileName
        = some [1, 2, 3]
      ∧ (MainWindow.actionVerify scenarioEnvironment lockedWindow).fileSystem.files
          lockedWindow.tmpFileName
        = some [1, 2, 3]
      ∧ (MainWindow.actionVerify scenarioEnvironment lockedWindow).fileSystem.files
          lockedWindow.tmpFileName
        ≠ some scenarioCodeBytes
      ∧ (MainWindow.actionVerify scenarioEnvironment lockedWindow).process
        = { state := ProcessState.Starting,
            launched := [("/usr/bin/arduino".toList,
              ["--verify".toList, "/tmp/visualino/visualino.ino".toList])] } := by
  refine ⟨rfl, by decide, by decide, by decide, by decide, by decide, by decide, by decide,
    by decide⟩

/-- C7, amended: for every generated source string `c` and every prior content
of the temp file, provided the temp file can be opened for writing
(`hwrite`), when `arduinoExec` comes to start the subprocess the temp file
holds exactly the local-encoding bytes of `c` and nothing of its previous
content, and it still does when `arduinoExec` returns. -/
theorem arduinoExec_tempFile (env : Environment) (action : QString) (w : MainWindow)
    (c : QString) (prior : Option QByteArray)
    (hcode : env.evaluateJavaScript MainWindow.workspaceToCodeScript = c)
    (hprior : w.fileSystem.files w.tmpFileName = prior)
    (hwrite : w.fileSystem.canWrite w.tmpFileName = true) :
    MainWindow.arduinoExec env action w
        = MainWindow.startProcess w.arduinoIdePath [action, w.tmpFileName]
            (MainWindow.arduinoWriteCode env w)
      ∧ (MainWindow.arduinoWriteCode env w).fileSystem.files w.tmpFileName
        = some (env.toLocal8Bit c)
      ∧ (MainWindow.arduinoExec env action w).fileSystem.files w.tmpFileName
        = some (env.toLocal8Bit c) := by
  have _ := hprior
  have hfiles := arduinoWriteCode_files env w hwrite
  rw [hcode] at hfiles
  exact ⟨rfl, hfiles, hfiles⟩

/-- The scenario of the amended C7: the editor generates `void loop(){}`, the
writable temp file held three other bytes, and after the verify action it
holds exactly the 13 bytes of the generated code. -/
theorem arduinoExec_tempFile_witness :
    scenarioEnvironment.evaluateJavaScript MainWindow.workspaceToCodeScript
        = "void loop()\x7b\x7d".toList
      ∧ scenarioWindow.fileSystem.files scenarioWindow.tmpFileName = some [1, 2, 3]
      ∧ scenarioWindow.fileSystem.canWrite scenarioWindow.tmpFileName = true
      ∧ scenarioEnvironment.toLocal8Bit "void loop()\x7b\x7d".toList = scenarioCodeBytes
      ∧ scenarioCodeBytes.length = 13
      ∧ (MainWindow.arduinoExec scenarioEnvironment "--verify".toList
          scenarioWindow).fileSystem.files scenarioWindow.tmpFileName
        = some (scenarioEnvironment.toLocal8Bit "void loop()\x7b\x7d".toList) :=
  ⟨rfl, by decide, by decide, by decide, by decide,
    (arduinoExec_tempFile scenarioEnvironment "--verify".toList scenarioWindow
      "void loop()\x7b\x7d".toList (some [1, 2, 3]) rfl (by decide) (by decide)).2.2⟩

/-- C8 as stated fails: a verify request made while the process is running
rewrites the temp file. The running window's temp file holds the bytes 1, 2, 3;
after `actionVerify` it holds the 13 bytes of the newly generated code. -/
theorem actionVerify_while_running_rewrites_tempFile :
    runningWindow.process.state = ProcessState.Running
      ∧ runningWindow.fileSystem.files "/tmp/visualino/visualino.ino".toList
        = some [1, 2, 3]
      ∧ (MainWindow.actionVerify scenarioEnvironment runningWindow).fileSystem.files
          "/tmp/visualino/visualino.ino".toList
        = some scenarioCodeBytes
      ∧ (MainWindow.actionVerify scenarioEnvironment runningWindow).fileSystem.files
          "/tmp/visualino/visualino.ino".toList
        ≠ runningWindow.fileSystem.files "/tmp/visualino/visualino.ino".toList := by
  refine ⟨rfl, by decide, by decide, by decide⟩

/-- C8, amended: a verify or upload request made while the process handle is
not idle is not refused by `arduinoExec`. It writes the temp file exactly as a
request made with any other handle, an idle one included, does (so a writable
temp file then holds the newly generated code) and calls `process->start` with the usual arguments; the
handle ignores that call, so its state and the list of launched programs are
unchanged, no second process is started and nothing is added to the log
panel. -/
theorem arduinoExec_while_running (env : Environment) (action : QString) (w : MainWindow)
    (hrun : w.process.state ≠ ProcessState.NotRunning) :
    (MainWindow.arduinoExec env action w).process = w.process
      ∧ (MainWindow.arduinoExec env action w).textBrowser = w.textBrowser
      ∧ (MainWindow.arduinoExec env action w).calls
        = w.calls ++ [Call.evaluateJavaScript MainWindow.workspaceToCodeScript,
            Call.processStart w.arduinoIdePath [action, w.tmpFileName]]
      ∧ (∀ handle : QProcess,
          (MainWindow.arduinoExec env action w).fileSystem
            = (MainWindow.arduinoExec env action { w with process := handle }).fileSystem)
      ∧ (w.fileSystem.canWrite w.tmpFileName = true →
          (MainWindow.arduinoExec env action w).fileSystem.files w.tmpFileName
            = some (env.toLocal8Bit
                (env.evaluateJavaScript MainWindow.workspaceToCodeScript))) := by
  refine ⟨?_, rfl, ?_, fun _ => rfl, fun hwrite => arduinoWriteCode_files env w hwrite⟩
  · simp [MainWindow.arduinoExec, MainWindow.startProcess, MainWindow.arduinoWriteCode,
      QProcess.start, hrun]
  · simp [MainWindow.arduinoExec, MainWindow.startProcess, MainWindow.arduinoWriteCode]

/-- The amended C8 at the running window: the handle stays as it was, the log
panel too, and the temp file is rewritten with the new code. -/
theorem arduinoExec_while_running_witness :
    runningWindow.process.state ≠ ProcessState.NotRunning
      ∧ (MainWindow.arduinoExec scenarioEnvironment "--upload".toList runningWindow).process
        = runningWindow.process
      ∧ (MainWindow.arduinoExec scenarioEnvironment "--upload".toList
          runningWindow).fileSystem.files runningWindow.tmpFileName
        = some (scenarioEnvironment.toLocal8Bit
            (scenarioEnvironment.evaluateJavaScript MainWindow.workspaceToCodeScript)) :=
  ⟨by decide,
    (arduinoExec_while_running scenarioEnvironment "--upload".toList runningWindow
      (by decide)).1,
    (arduinoExec_while_running scenarioEnvironment "--upload".toList runningWindow
      (by decide)).2.2.2.2 (by decide)⟩

/-! ## The document actions -/

/-- The file `saveXml` writes is the only one it can change. -/
theorem saveXml_files_of_ne (env : Environment) (xml xmlFileName q : QString)
    (w : MainWindow) (hq : xmlFileName ≠ q) :
    (MainWindow.saveXml env xml xmlFileName w).fileSystem.files q = w.fileSystem.files q := by
  unfold MainWindow.saveXml FileSystem.openWriteOnly FileSystem.write
  by_cases hw : w.fileSystem.canWrite xmlFileName = true
  · by_cases he : w.xmlFileName.isEmpty = true <;>
      simp [hw, he, Function.update_noteq (Ne.symm hq)]
  · simp [hw]

/-- A save whose target cannot be opened for writing changes neither the file
name of the document nor the file system. -/
theorem saveXml_of_not_canWrite (env : Environment) (xml xmlFileName : QString)
    (w : MainWindow) (hw : w.fileSystem.canWrite xmlFileName = false) :
    (MainWindow.saveXml env xml xmlFileName w).xmlFileName = w.xmlFileName
      ∧ (MainWindow.saveXml env xml xmlFileName w).fileSystem = w.fileSystem := by
  unfold MainWindow.saveXml FileSystem.openWriteOnly
  simp [hw]

/-- C9: whatever the document was bound to, after `actionNew` its file name is
unset, and an `actionSave` that follows asks the bridge for the XML, shows the
save dialog, and changes no file other than the one the dialog returned (in
particular not the file bound before `actionNew`, unless the dialog returned
that very path); afterwards the document is unset or bound to the dialog's
path. -/
theorem actionNew_then_actionSave (env : Environment) (w : MainWindow) (q : QString)
    (hq : env.getSaveFileName ≠ some q) :
    (MainWindow.actionNew w).xmlFileName = []
      ∧ (∃ rest, (MainWindow.actionSave env (MainWindow.actionNew w)).calls
          = (MainWindow.actionNew w).calls
            ++ [Call.evaluateJavaScript MainWindow.workspaceToXmlScript, Call.getSaveFileName]
            ++ rest)
      ∧ (MainWindow.actionSave env (MainWindow.actionNew w)).fileSystem.files q
        = w.fileSystem.files q
      ∧ ((MainWindow.actionSave env (MainWindow.actionNew w)).xmlFileName = []
          ∨ some (MainWindow.actionSave env (MainWindow.actionNew w)).xmlFileName
            = env.getSaveFileName) := by
  refine ⟨rfl, ?_, ?_, ?_⟩
  · cases hd : env.getSaveFileName with
    | none =>
      exact ⟨[], by simp [MainWindow.actionSave, MainWindow.actionNew, hd]⟩
    | some p =>
      by_cases hw : w.fileSystem.canWrite p = true
      · exact ⟨[Call.showMessage (tr "Done saving.") 2000], by
          simp [MainWindow.actionSave, MainWindow.actionNew, MainWindow.saveXml,
            FileSystem.openWriteOnly, hd, hw]⟩
      · exact ⟨[Call.messageBox ((tr "Couldn't open file to save content: %1.").arg p)], by
          simp [MainWindow.actionSave, MainWindow.actionNew, MainWindow.saveXml,
            FileSystem.openWriteOnly, hd, hw]⟩
  · cases hd : env.getSaveFileName with
    | none => simp [MainWindow.actionSave, MainWindow.actionNew, hd]
    | some p =>
      have hpq : p ≠ q := fun h => hq (by rw [hd, h])
      simp only [MainWindow.actionSave, MainWindow.actionNew, hd, List.isEmpty_nil, if_true]
      rw [saveXml_files_of_ne env _ p q _ hpq]
  · cases hd : env.getSaveFileName with
    | none => left; simp [MainWindow.actionSave, MainWindow.actionNew, hd]
    | some p =>
      by_cases hw : w.fileSystem.canWrite p = true
      · right
        simp [MainWindow.actionSave, MainWindow.actionNew, MainWindow.saveXml,
          FileSystem.openWriteOnly, hd, hw]
      · left
        simp [MainWindow.actionSave, MainWindow.actionNew, MainWindow.saveXml,
          FileSystem.openWriteOnly, hd, hw]

/-- The scenario of C9: the document is bound to `/home/u/old.xml`; after
`actionNew` the dialog returns `/home/u/new.xml`, and the save leaves the old
file as it was. -/
theorem actionNew_then_actionSave_witness :
    boundWindow.xmlFileName = "/home/u/old.xml".toList
      ∧ ({ scenarioEnvironment with getSaveFileName := some "/home/u/new.xml".toList }
          : Environment).getSaveFileName ≠ some "/home/u/old.xml".toList
      ∧ (MainWindow.actionSave
          { scenarioEnvironment with getSaveFileName := some "/home/u/new.xml".toList }
          (MainWindow.actionNew boundWindow)).fileSystem.files "/home/u/old.xml".toList
        = boundWindow.fileSystem.files "/home/u/old.xml".toList
      ∧ (MainWindow.actionSave
          { scenarioEnvironment with getSaveFileName := some "/home/u/new.xml".toList }
          (MainWindow.actionNew boundWindow)).fileSystem.files "/home/u/new.xml".toList
        = some scenarioCodeBytes
      ∧ (MainWindow.actionSave
          { scenarioEnvironment with getSaveFileName := some "/home/u/new.xml".toList }
          (MainWindow.actionNew boundWindow)).xmlFileName = "/home/u/new.xml".toList :=
  ⟨by decide, by decide,
    (actionNew_then_actionSave
      { scenarioEnvironment with getSaveFileName := some "/home/u/new.xml".toList }
      boundWindow "/home/u/old.xml".toList (by decide)).2.2.1,
    by decide, by decide⟩

/-- C10: an `actionSave` on an unset document whose dialog is cancelled changes
nothing but the record of the two calls made (the serialization script and the
dialog): the document stays unset and no file is written. And a save whose
target, the dialog's path for an unset document or else the bound path, cannot
be opened for writing leaves the document's file name and the file system as
they were. -/
theorem actionSave_cancelled_or_unwritable (env : Environment) (w : MainWindow) :
    (w.xmlFileName = [] → env.getSaveFileName = none →
        MainWindow.actionSave env w
          = { w with calls := w.calls
                ++ [Call.evaluateJavaScript MainWindow.workspaceToXmlScript,
                    Call.getSaveFileName] })
      ∧ (∀ target : QString,
          (if w.xmlFileName.isEmpty then env.getSaveFileName else some w.xmlFileName)
            = some target →
          w.fileSystem.canWrite target = false →
          (MainWindow.actionSave env w).xmlFileName = w.xmlFileName
            ∧ (MainWindow.actionSave env w).fileSystem = w.fileSystem) := by
  constructor
  · intro hunset hcancel
    simp [MainWindow.actionSave, hunset, hcancel]
  · intro target htarget hw
    by_cases he : w.xmlFileName.isEmpty = true
    · rw [if_pos he] at htarget
      simp only [MainWindow.actionSave, he, if_true, htarget]
      exact saveXml_of_not_canWrite env _ target _ hw
    · rw [if_neg he] at htarget
      cases htarget
      simp only [MainWindow.actionSave, he]
      exact saveXml_of_not_canWrite env _ _ _ hw

/-- The scenarios of C10: the cancelled dialog on the unset scenario window, and
a save to a path below `/readonly/`. -/
theorem actionSave_cancelled_or_unwritable_witness :
    scenarioWindow.xmlFileName = []
      ∧ scenarioEnvironment.getSaveFileName = none
      ∧ MainWindow.actionSave scenarioEnvironment scenarioWindow
        = { scenarioWindow with calls := scenarioWindow.calls
              ++ [Call.evaluateJavaScript MainWindow.workspaceToXmlScript,
                  Call.getSaveFileName] }
      ∧ scenarioWindow.fileSystem.canWrite "/readonly/a.xml".toList = false
      ∧ (MainWindow.actionSave
          { scenarioEnvironment with getSaveFileName := some "/readonly/a.xml".toList }
          scenarioWindow).xmlFileName = scenarioWindow.xmlFileName
      ∧ (MainWindow.actionSave
          { scenarioEnvironment with getSaveFileName := some "/readonly/a.xml".toList }
          scenarioWindow).fileSystem = scenarioWindow.fileSystem :=
  ⟨by decide, rfl,
    (actionSave_cancelled_or_unwritable scenarioEnvironment scenarioWindow).1
      (by decide) rfl,
    by decide,
    (actionSave_cancelled_or_unwritable
      { scenarioEnvironment with getSaveFileName := some "/readonly/a.xml".toList }
      scenarioWindow).2 "/readonly/a.xml".toList (by decide) (by decide)⟩
